import Mathlib

/-!
# Verification of the userutils credential core

A shallow embedding, in Lean 4, of the credential store, password
verification and privilege-transition logic of the `userutils`
repository (`src/lib.rs`, `src/bin/login.rs`, `src/bin/su.rs`,
`src/bin/sudo.rs`), together with theorems settling the specified
properties of that code.

Strings are modelled by Lean `String`; splitting and numeric parsing
are modelled on the underlying character lists, mirroring the byte-level
behaviour of the Rust standard library functions used by the code
(`str::split`, `str::lines`, `u32::from_str`, `format!("{}", n)`).
Fallible calls are modelled with `Except`/`Option`; a Rust `panic!` /
`unwrap` failure is modelled by the `none` case of an `Option` result.
-/

namespace Userutils

/-- Splitting a character list at every occurrence of the separator,
with the semantics of Rust's `str::split`: `n` separators yield `n + 1`
pieces, empty pieces included, and the empty input yields `[[]]`. -/
def splitOnChar (sep : Char) : List Char → List (List Char)
  | [] => [[]]
  | c :: cs =>
    if c = sep then
      [] :: splitOnChar sep cs
    else
      match splitOnChar sep cs with
      | [] => [[c]]
      | piece :: rest => (c :: piece) :: rest

/-- The numeric value of a decimal digit character, `none` on any other
character; models how `u32::from_str` consumes one byte. -/
def digitVal (c : Char) : Option Nat :=
  if '0' ≤ c ∧ c ≤ '9' then some (c.toNat - 48) else none

/-- Accumulating left-to-right decimal evaluation of a digit string,
as performed by Rust's integer `from_str`. -/
def parseDigits : List Char → Nat → Option Nat
  | [], acc => some acc
  | c :: cs, acc =>
    match digitVal c with
    | some d => parseDigits cs (acc * 10 + d)
    | none => none

/-- One optional leading `'+'` sign stripped, as Rust's unsigned
`from_str` allows. -/
def stripPlus (cs : List Char) : List Char :=
  match cs with
  | c :: rest => if c = '+' then rest else c :: rest
  | [] => []

/-- `u32::from_str` on the characters of the input: an optional leading
`'+'`, then a non-empty run of decimal digits whose value fits in 32
bits; anything else fails. -/
def parseU32 (cs : List Char) : Option Nat :=
  let digits := stripPlus cs
  if digits = [] then none
  else
    match parseDigits digits 0 with
    | some n => if n < 4294967296 then some n else none
    | none => none

/-- A user record: one parsed line of `/etc/passwd`
(`struct Passwd` in `src/lib.rs`; the `redox_users::User` consumed by
`su`/`login` carries the same fields). -/
structure Passwd where
  user : String
  hash : String
  uid : Nat
  gid : Nat
  name : String
  home : String
  shell : String
  deriving Repr, DecidableEq

/-- A group record: one parsed line of `/etc/group`
(`struct Group` in `src/lib.rs`). -/
structure Group where
  group : String
  gid : Nat
  users : String
  deriving Repr, DecidableEq

/-- Field consumption of `Passwd::parse`: take the first seven pieces
via iterator `next()` (any further pieces are left unconsumed, so a
longer split still succeeds), parse `uid` and `gid` as `u32`. -/
def Passwd.parseFields : List (List Char) → Except Unit Passwd
  | user :: hash :: uidF :: gidF :: name :: home :: shell :: _rest =>
    match parseU32 uidF, parseU32 gidF with
    | some uid, some gid =>
      Except.ok ⟨⟨user⟩, ⟨hash⟩, uid, gid, ⟨name⟩, ⟨home⟩, ⟨shell⟩⟩
    | _, _ => Except.error ()
  | _ => Except.error ()

/-- `Passwd::parse` from `src/lib.rs`: split the line on `';'` and
consume the fields. -/
def Passwd.parse (line : String) : Except Unit Passwd :=
  Passwd.parseFields (splitOnChar ';' line.data)

/-- Field consumption of `Group::parse`: the first three pieces, with
`gid` parsed as `u32`. -/
def Group.parseFields : List (List Char) → Except Unit Group
  | group :: gidF :: users :: _rest =>
    match parseU32 gidF with
    | some gid => Except.ok ⟨⟨group⟩, gid, ⟨users⟩⟩
    | none => Except.error ()
  | _ => Except.error ()

/-- `Group::parse` from `src/lib.rs`: split the line on `';'` and
consume the fields. -/
def Group.parse (line : String) : Except Unit Group :=
  Group.parseFields (splitOnChar ';' line.data)

/-- The little-endian decimal digits of `n`, with enough `fuel` to
exhaust the quotients (`n` itself always suffices). -/
def natDigitsRev : Nat → Nat → List Nat
  | 0, _ => []
  | fuel + 1, n => if n = 0 then [] else n % 10 :: natDigitsRev fuel (n / 10)
  -- the first argument is fuel, structurally decreasing so that the
  -- kernel can evaluate the definition; `n ≤ fuel` keeps it faithful

/-- The decimal digit characters of a natural number, most significant
first; models Rust's `format!("{}", n)` for an unsigned integer. -/
def natReprChars (n : Nat) : List Char :=
  if n = 0 then ['0']
  else ((natDigitsRev n n).map (fun d => Char.ofNat (48 + d))).reverse

/-- Decimal rendering of a natural number as a string
(`format!("{}", n)`). -/
def natRepr (n : Nat) : String := ⟨natReprChars n⟩

/-- One trailing carriage return stripped, as `str::lines` does for a
line that was terminated by `"\r\n"`. -/
def stripCR (l : List Char) : List Char :=
  if l.getLast? = some '\r' then l.dropLast else l

/-- Helper for `rustLines`: every piece except the final one was
terminated by `'\n'` in the original string, so it has a trailing
`'\r'` stripped; a final empty piece (the input ended in `'\n'`) is
dropped, a final non-empty piece is kept verbatim. -/
def rustLinesAux : List (List Char) → List (List Char)
  | [] => []
  | [last] => if last = [] then [] else [last]
  | p :: rest => stripCR p :: rustLinesAux rest

/-- Rust's `str::lines`: split at `'\n'` (also consuming a preceding
`'\r'`), with the final line terminator optional. -/
def rustLines (s : String) : List String :=
  (rustLinesAux (splitOnChar '\n' s.data)).map String.mk

/-- The loop body shared by both `parse_file` functions in
`src/lib.rs`: `if let Ok(entry) = parse(line) { entries.push(entry) }`. -/
def pushOk {β : Type} (f : String → Except Unit β) (entries : List β)
    (line : String) : List β :=
  match f line with
  | Except.ok b => entries ++ [b]
  | Except.error _ => entries

/-- `Passwd::parse_file` from `src/lib.rs`: walk the lines of the file
data, pushing each line that parses and skipping each line that does
not, and return the accumulated entries wrapped in `Ok` — the function
has no failing path. -/
def Passwd.parse_file (file_data : String) : Except Unit (List Passwd) :=
  Except.ok <| (rustLines file_data).foldl (pushOk Passwd.parse) []

/-- `Group::parse_file` from `src/lib.rs`: same lenient per-line policy
as `Passwd::parse_file`. -/
def Group.parse_file (file_data : String) : Except Unit (List Group) :=
  Except.ok <| (rustLines file_data).foldl (pushOk Group.parse) []

/-- The user records of the parseable lines of a file, in file order:
the specification-level description of what `Passwd::parse_file`
collects. -/
def passwdRecords (file_data : String) : List Passwd :=
  (rustLines file_data).filterMap (fun line => (Passwd.parse line).toOption)

/-- The group records of the parseable lines of a file, in file order. -/
def groupRecords (file_data : String) : List Group :=
  (rustLines file_data).filterMap (fun line => (Group.parse line).toOption)

/-- `get_passwd_by_id` from `src/lib.rs`, with the backing snapshot
(the content of `/etc/passwd`, read afresh on every call) passed in as
a string: parse the file, unwrap the result, and linearly scan for the
first entry whose `uid` matches. The `error` branch models the panic
of the `unwrap`; it is unreachable because `parse_file` always returns
`ok`. -/
def get_passwd_by_id (uid : Nat) (passwd_data : String) : Option Passwd :=
  match Passwd.parse_file passwd_data with
  | Except.ok entries => entries.find? (fun passwd => passwd.uid == uid)
  | Except.error _ => none

/-- `get_group_by_id` from `src/lib.rs`, with the backing snapshot (the
content of `/etc/group`) passed in as a string. -/
def get_group_by_id (gid : Nat) (group_data : String) : Option Group :=
  match Group.parse_file group_data with
  | Except.ok entries => entries.find? (fun group => group.gid == gid)
  | Except.error _ => none

/-- The argon2 password codec used through `argon2rs::verifier::Encoded`.
`decode` models `Encoded::from_u8` on a stored hash string: for a
structurally valid self-describing hash it yields the verification
function (re-derive with the embedded parameters and salt, compare with
the embedded key — `Encoded::verify`); for a corrupt hash it yields
`none`. The codec itself is external to this repository, so it is kept
abstract. -/
structure Codec where
  decode : String → Option (String → Bool)

/-- `Passwd::verify` from `src/lib.rs`:
`Encoded::from_u8(self.hash.as_bytes()).unwrap()` then
`e.verify(password.as_bytes())`. The `unwrap` panics when the stored
hash does not decode; the panic is modelled by the `none` result. -/
def Passwd.verify (c : Codec) (p : Passwd) (password : String) : Option Bool :=
  match c.decode p.hash with
  | some check => some (check password)
  | none => none

/-- The security attributes a flow hands to the process-spawn
collaborator: program, arguments, uid and gid, working directory
(`none` when the child inherits the caller's), environment overlay. -/
structure SecurityContext where
  program : String
  args : List String
  uid : Nat
  gid : Nat
  cwd : Option String
  env : List (String × String)
  deriving Repr, DecidableEq

namespace Su

/-- The context built by `spawn_shell` in `src/bin/su.rs`:
`Command::new(&user.shell)` with `uid`/`gid` set to the target's and the
five environment variables overlaid; no working directory is set. -/
def spawn_shell (user : Passwd) : SecurityContext :=
  { program := user.shell
    args := []
    uid := user.uid
    gid := user.gid
    cwd := none
    env := [("USER", user.user), ("UID", natRepr user.uid),
            ("GROUPS", natRepr user.gid), ("HOME", user.home),
            ("SHELL", user.shell)] }

/-- Observable outcome of one run of `main` in `src/bin/su.rs` after
the target user has been looked up: whether a password prompt was
written and a secret requested, whether `User::verify` was invoked,
whether that call panicked, whether `su: authentication failed` was
printed, the context of the spawned shell if one was spawned, and the
process exit code (`none` when the run panicked). -/
structure Result where
  prompted : Bool
  codecInvoked : Bool
  panicked : Bool
  authFailedMsg : Bool
  spawned : Option SecurityContext
  exitCode : Option Nat
  deriving Repr, DecidableEq

/-- The continuation of su's `main` after `user.verify(&password)`
returned: success spawns the shell and exits 0; failure prints
`su: authentication failed` and falls through to the final
`spawn_shell(user)`, after which `main` returns normally (exit 0); a
panicking verification aborts the process. -/
def afterVerify (user : Passwd) : Option Bool → Result
  | none => ⟨true, true, true, false, none, none⟩
  | some true => ⟨true, true, false, false, some (spawn_shell user), some 0⟩
  | some false => ⟨true, true, false, true, some (spawn_shell user), some 0⟩

/-- The password-prompt branch of su's `main`: write the prompt, read a
secret, verify it; end of input skips the `if let` body and falls
through to the final `spawn_shell(user)`. -/
def promptBranch (user : Passwd) (c : Codec) : Option String → Result
  | some password => afterVerify user (Passwd.verify c user password)
  | none => ⟨true, false, false, false, some (spawn_shell user), some 0⟩

/-- `main` from `src/bin/su.rs`, from the point where the invoking uid
and the target record are in hand. `input` is what `read_passwd`
returns when a secret is requested (`none` = end of input). Mirrors the
source: the guard is `uid > 0 || user.hash != ""`; when it is false the
flow goes straight to the final `spawn_shell(user)` and exits 0. -/
def main (uid : Nat) (user : Passwd) (input : Option String) (c : Codec) : Result :=
  if 0 < uid ∨ user.hash ≠ "" then promptBranch user c input
  else ⟨false, false, false, false, some (spawn_shell user), some 0⟩

end Su

namespace Login

/-- The context built by `spawn_shell` in `src/bin/login.rs`: as in
`su`, but additionally `current_dir(&user.home)`. -/
def spawn_shell (user : Passwd) : SecurityContext :=
  { program := user.shell
    args := []
    uid := user.uid
    gid := user.gid
    cwd := some user.home
    env := [("USER", user.user), ("UID", natRepr user.uid),
            ("GROUPS", natRepr user.gid), ("HOME", user.home),
            ("SHELL", user.shell)] }

/-- Observable outcome of one iteration of the login loop in
`src/bin/login.rs` for a non-empty user name, after the lookup:
whether `Login incorrect` was printed, whether `User::verify` was
invoked, whether it panicked, the spawned shell's context when the
iteration breaks the loop with a shell, and whether the loop runs
another iteration. -/
structure Step where
  loginIncorrectMsg : Bool
  codecInvoked : Bool
  panicked : Bool
  spawned : Option SecurityContext
  loopsAgain : Bool
  deriving Repr, DecidableEq

/-- The continuation of login's loop body after `user.verify(&password)`
returned: success spawns the shell and breaks the loop, failure loops
again (silently), a panicking verification aborts the process. -/
def afterVerify (user : Passwd) : Option Bool → Step
  | none => ⟨false, true, true, none, false⟩
  | some true => ⟨false, true, false, some (spawn_shell user), false⟩
  | some false => ⟨false, true, false, none, true⟩

/-- The password-prompt branch of login's loop body: read a secret and
verify it; end of input skips the `if let` body and loops again. -/
def promptBranch (user : Passwd) (c : Codec) : Option String → Step
  | some password => afterVerify user (Passwd.verify c user password)
  | none => ⟨false, false, false, none, true⟩

/-- One iteration of the loop in `main` of `src/bin/login.rs`, given
the result of `get_user_by_name` and the secret the password prompt
would read. An unknown user prints `Login incorrect` and loops; an
empty stored hash spawns the shell at once, before any password prompt;
otherwise the secret is read and verified. -/
def step : Option Passwd → Option String → Codec → Step
  | none, _, _ => ⟨true, false, false, none, true⟩
  | some user, input, c =>
    if user.hash = "" then ⟨false, false, false, some (spawn_shell user), false⟩
    else promptBranch user c input

end Login

namespace Sudo

/-- Outcome of the bounded-retry password loop in `src/bin/sudo.rs`
(the `loop` with `max_attempts = 3`). `accepted k` records that `k`
attempts failed before the successful one; `denied k` is
`process::exit(1)` after the `k`-th consecutive failure reached the
bound; `eofDenied` is `process::exit(1)` on end of input;
`panicked` models a panicking `verify`; `inputExhausted` marks the
model's finite secret stream running out (the real blocking reader
never does). -/
inductive AuthOutcome where
  | accepted (failedAttempts : Nat)
  | denied (attempts : Nat)
  | eofDenied
  | panicked
  | inputExhausted
  deriving Repr, DecidableEq

/-- The retry loop of `src/bin/sudo.rs`: prompt, read a secret, verify;
success breaks, failure increments the counter and exits non-zero once
the counter reaches `max_attempts`, end of input exits non-zero at
once. -/
def auth_loop (c : Codec) (passwd : Passwd) (max_attempts : Nat) :
    List (Option String) → Nat → AuthOutcome
  | [], _ => .inputExhausted
  | none :: _, _ => .eofDenied
  | some password :: rest, attempts =>
    match Passwd.verify c passwd password with
    | none => .panicked
    | some true => .accepted attempts
    | some false =>
      if attempts + 1 ≥ max_attempts then .denied (attempts + 1)
      else auth_loop c passwd max_attempts rest (attempts + 1)

/-- The scan of `/etc/passwd` lines in `src/bin/sudo.rs`: parse each
line, breaking on the first parseable entry whose uid equals the
caller's. -/
def find_passwd (uid : Nat) : List String → Option Passwd
  | [] => none
  | line :: rest =>
    match Passwd.parse line with
    | Except.ok passwd =>
      if passwd.uid == uid then some passwd else find_passwd uid rest
    | Except.error _ => find_passwd uid rest

/-- The scan of `/etc/group` lines in `src/bin/sudo.rs`: parse each
line, breaking on the first parseable group named `sudo` among whose
comma-split members the caller's user name appears verbatim. -/
def find_sudo_group (user : String) : List String → Option Group
  | [] => none
  | line :: rest =>
    match Group.parse line with
    | Except.ok group =>
      if group.group == "sudo"
          && (splitOnChar ',' group.users.data).any (fun name => name == user.data) then
        some group
      else find_sudo_group user rest
    | Except.error _ => find_sudo_group user rest

/-- Outcome of a run of sudo's `main`: each `process::exit(1)` path,
a panic, or the spawn of the requested command; a spawn exits with the
child's own exit code, propagated verbatim. -/
inductive Result where
  | noCommand
  | userNotFound
  | notInSudoGroup
  | authFailed (out : AuthOutcome)
  | spawn (ctx : SecurityContext)
  deriving Repr, DecidableEq

/-- The password gate of sudo's `main`: an empty stored hash skips the
retry loop entirely; otherwise only an accepted outcome of the loop
reaches the spawn step. -/
def authGate (c : Codec) (passwd : Passwd) (inputs : List (Option String))
    (ctx : SecurityContext) : Result :=
  if passwd.hash = "" then .spawn ctx
  else
    match auth_loop c passwd 3 inputs 0 with
    | .accepted _ => .spawn ctx
    | out => .authFailed out

/-- The checks of sudo's `main` for a non-root caller: resolve the
caller's record, require membership in the `sudo` group, then pass the
password gate. -/
def nonRootChecks (uid : Nat) (passwd_data group_data : String)
    (inputs : List (Option String)) (c : Codec) (ctx : SecurityContext) : Result :=
  match find_passwd uid (rustLines passwd_data) with
  | none => .userNotFound
  | some passwd =>
    match find_sudo_group passwd.user (rustLines group_data) with
    | none => .notInSudoGroup
    | some _ => authGate c passwd inputs ctx

/-- `main` from `src/bin/sudo.rs` (the full body is present in the
source file in commented-out form; the claims cite it as the elevation
flow, so it is embedded as written). `args` are the command-line
arguments after the program name; `uid` is `getuid()`; the two strings
are the backing snapshots; `inputs` feeds the password prompts. The
spawned context is built with `uid(0)`, `gid(0)` and the fixed
`USER=root`, `UID=0`, `GROUPS=0` overlay, whatever the invoking user's
record contains. -/
def main : List String → Nat → String → String → List (Option String) → Codec → Result
  | [], _, _, _, _, _ => .noCommand
  | cmd :: rest, uid, passwd_data, group_data, inputs, c =>
    let ctx : SecurityContext :=
      { program := cmd, args := rest, uid := 0, gid := 0, cwd := none
        env := [("USER", "root"), ("UID", "0"), ("GROUPS", "0")] }
    if uid ≠ 0 then nonRootChecks uid passwd_data group_data inputs c ctx
    else .spawn ctx

end Sudo

/-- Modelled from the spec: the repository contains no serializer for
user records (the on-disk shape is the persisted-state contract of §6),
so serialization is the `';'`-join of the record's fields in database
order `name;hash;uid;gid;display_name;home;shell`, numeric fields in
decimal. -/
def Passwd.serialize (p : Passwd) : String :=
  ⟨p.user.data ++ ';' :: p.hash.data ++ ';' :: natReprChars p.uid ++
    ';' :: natReprChars p.gid ++ ';' :: p.name.data ++
    ';' :: p.home.data ++ ';' :: p.shell.data⟩

/-- Modelled from the spec: serialization of a group record, the
`';'`-join of its fields in database order `name;gid;members`. -/
def Group.serialize (g : Group) : String :=
  ⟨g.group.data ++ ';' :: natReprChars g.gid ++ ';' :: g.users.data⟩

/-- A fixture codec whose verification rejects every secret, used to
exercise the flows on concrete inputs. -/
def rejectCodec : Codec := ⟨fun _ => some (fun _ => false)⟩

/-- A fixture codec whose decoding fails on every stored hash, standing
for a store whose hash fields are corrupt. -/
def corruptCodec : Codec := ⟨fun _ => none⟩

/-- A fixture user record with a non-empty stored hash. -/
def aliceRecord : Passwd :=
  ⟨"alice", "$argon2i$", 1000, 1000, "Alice", "/home/alice", "/bin/sh"⟩

/-- A fixture user record with an empty stored hash (a passwordless
account). -/
def bobRecord : Passwd :=
  ⟨"bob", "", 1001, 1001, "Bob", "/home/bob", "/bin/sh"⟩

/-- A fixture group record. -/
def sudoGroupRecord : Group := ⟨"sudo", 27, "alice,bob"⟩

/-! ## Sanity checks of the embedding on concrete inputs -/

example : Passwd.parse "alice;h;1000;1001;Alice;/home/alice;/bin/sh" =
    Except.ok ⟨"alice", "h", 1000, 1001, "Alice", "/home/alice", "/bin/sh"⟩ := by
  rfl

example : (Passwd.parse "a;b;1;2;n;h").isOk = false := by decide
example : (Group.parse "sudo;27;alice,bob").isOk = true := by decide
example : natRepr 0 = "0" := by decide
example : natRepr 1000 = "1000" := by decide
example : rustLines "a\nb\n" = ["a", "b"] := by decide
example : rustLines "a\r\nb" = ["a", "b"] := by decide
example : rustLines "" = [] := by decide
example : rustLines "a\r" = ["a\r"] := by decide
example : rustLines "\n" = [""] := by decide
example : Passwd.serialize ⟨"alice", "h", 1000, 1001, "Alice", "/home/alice", "/bin/sh"⟩ =
    "alice;h;1000;1001;Alice;/home/alice;/bin/sh" := by decide

/-! ## Helper lemmas -/

/-- `splitOnChar` never returns the empty list of pieces. -/
theorem splitOnChar_ne_nil (sep : Char) (cs : List Char) :
    splitOnChar sep cs ≠ [] := by
  induction cs with
  | nil => simp [splitOnChar]
  | cons c cs ih =>
    simp only [splitOnChar]
    split
    · simp
    · cases h : splitOnChar sep cs with
      | nil => exact absurd h ih
      | cons p r => simp

/-- A character list free of the separator splits into itself alone. -/
theorem splitOnChar_of_not_mem {sep : Char} {cs : List Char} (h : sep ∉ cs) :
    splitOnChar sep cs = [cs] := by
  induction cs with
  | nil => rfl
  | cons c cs ih =>
    simp only [List.mem_cons, not_or] at h
    simp only [splitOnChar]
    rw [if_neg (fun hc => h.1 hc.symm), ih h.2]

/-- Splitting peels off a separator-free prefix as the first piece. -/
theorem splitOnChar_append {sep : Char} {xs ys : List Char} (h : sep ∉ xs) :
    splitOnChar sep (xs ++ sep :: ys) = xs :: splitOnChar sep ys := by
  induction xs with
  | nil => simp [splitOnChar]
  | cons c cs ih =>
    simp only [List.mem_cons, not_or] at h
    simp only [List.cons_append, splitOnChar, List.append_eq]
    rw [if_neg (fun hc => h.1 hc.symm), ih h.2]

/-- `digitVal` recovers the value of a digit character. -/
theorem digitVal_digitChar {d : Nat} (h : d < 10) :
    digitVal (Char.ofNat (48 + d)) = some d := by
  interval_cases d <;> decide

/-- Digit characters are not the field delimiter. -/
theorem digitChar_ne_semicolon {d : Nat} (h : d < 10) :
    Char.ofNat (48 + d) ≠ ';' := by
  interval_cases d <;> decide

/-- Digit characters are not the sign character. -/
theorem digitChar_ne_plus {d : Nat} (h : d < 10) :
    Char.ofNat (48 + d) ≠ '+' := by
  interval_cases d <;> decide

/-- `parseDigits` evaluates a rendered digit list by left-to-right
decimal accumulation. -/
theorem parseDigits_map_digits :
    ∀ (D : List Nat) (acc : Nat), (∀ d ∈ D, d < 10) →
      parseDigits (D.map (fun d => Char.ofNat (48 + d))) acc =
        some (D.foldl (fun a d => a * 10 + d) acc) := by
  intro D
  induction D with
  | nil => intro acc _; rfl
  | cons d D ih =>
    intro acc h
    have hd : d < 10 := h d (by simp)
    simp only [List.map_cons, parseDigits, digitVal_digitChar hd, List.foldl_cons]
    exact ih _ (fun x hx => h x (by simp [hx]))

/-- Every entry produced by `natDigitsRev` is a decimal digit. -/
theorem natDigitsRev_lt :
    ∀ (fuel n : Nat), ∀ d ∈ natDigitsRev fuel n, d < 10 := by
  intro fuel
  induction fuel with
  | zero => intro n d hd; simp [natDigitsRev] at hd
  | succ fuel ih =>
    intro n d hd
    simp only [natDigitsRev] at hd
    split at hd
    · simp at hd
    · rcases List.mem_cons.mp hd with h | h
      · subst h; exact Nat.mod_lt _ (by norm_num)
      · exact ih _ _ h

/-- Decimal re-accumulation of the digits of `n` (most significant
first) recovers `n`, shifted under any prior accumulator. -/
theorem natDigitsRev_foldl :
    ∀ (fuel n acc : Nat), n ≤ fuel →
      (natDigitsRev fuel n).reverse.foldl (fun a d => a * 10 + d) acc =
        acc * 10 ^ (natDigitsRev fuel n).length + n := by
  intro fuel
  induction fuel with
  | zero =>
    intro n acc h
    interval_cases n
    simp [natDigitsRev]
  | succ fuel ih =>
    intro n acc h
    by_cases hn : n = 0
    · subst hn; simp [natDigitsRev]
    · have hdiv : n / 10 ≤ fuel := by
        have : n / 10 < n := Nat.div_lt_self (Nat.pos_of_ne_zero hn) (by norm_num)
        omega
      simp only [natDigitsRev, if_neg hn, List.reverse_cons, List.foldl_append,
        List.foldl_cons, List.foldl_nil, List.length_cons]
      rw [ih (n / 10) acc hdiv]
      have key : n / 10 * 10 + n % 10 = n := by omega
      generalize (natDigitsRev fuel (n / 10)).length = L
      calc (acc * 10 ^ L + n / 10) * 10 + n % 10
          = acc * (10 ^ L * 10) + (n / 10 * 10 + n % 10) := by ring
        _ = acc * 10 ^ (L + 1) + n := by rw [pow_succ, key]

/-- A positive number has at least one digit. -/
theorem natDigitsRev_ne_nil {fuel n : Nat} (hf : 0 < fuel) (hn : n ≠ 0) :
    natDigitsRev fuel n ≠ [] := by
  cases fuel with
  | zero => omega
  | succ fuel => simp [natDigitsRev, hn]

/-- The decimal rendering of a number is never empty. -/
theorem natReprChars_ne_nil (n : Nat) : natReprChars n ≠ [] := by
  unfold natReprChars
  split
  · simp
  · next hn =>
    have h : natDigitsRev n n ≠ [] := natDigitsRev_ne_nil (Nat.pos_of_ne_zero hn) hn
    simp [h]

/-- Every character of a decimal rendering is a digit character. -/
theorem natReprChars_mem {n : Nat} {c : Char} (h : c ∈ natReprChars n) :
    ∃ d, d < 10 ∧ c = Char.ofNat (48 + d) := by
  unfold natReprChars at h
  split at h
  · refine ⟨0, by norm_num, ?_⟩
    simp at h
    simp [h]
  · rw [List.mem_reverse, List.mem_map] at h
    obtain ⟨d, hd, rfl⟩ := h
    exact ⟨d, natDigitsRev_lt n n d hd, rfl⟩

/-- The field delimiter never occurs in a decimal rendering. -/
theorem natReprChars_not_semicolon (n : Nat) : ';' ∉ natReprChars n := by
  intro h
  obtain ⟨d, hd, hc⟩ := natReprChars_mem h
  exact digitChar_ne_semicolon hd hc.symm

/-- A decimal rendering carries no sign, so sign stripping keeps it. -/
theorem stripPlus_natReprChars (n : Nat) :
    stripPlus (natReprChars n) = natReprChars n := by
  cases h : natReprChars n with
  | nil => rfl
  | cons c rest =>
    have hc : c ∈ natReprChars n := by rw [h]; simp
    obtain ⟨d, hd, rfl⟩ := natReprChars_mem hc
    simp [stripPlus, digitChar_ne_plus hd]

/-- `parseDigits` inverts the decimal rendering. -/
theorem parseDigits_natReprChars (n : Nat) :
    parseDigits (natReprChars n) 0 = some n := by
  by_cases hn : n = 0
  · subst hn; decide
  · unfold natReprChars
    rw [if_neg hn]
    rw [← List.map_reverse]
    rw [parseDigits_map_digits _ 0
      (fun d hd => natDigitsRev_lt n n d (List.mem_reverse.mp hd))]
    rw [natDigitsRev_foldl n n 0 (Nat.le_refl n)]
    simp

/-- `u32::from_str` inverts `format!("{}", n)` for every 32-bit value. -/
theorem parseU32_natRepr {n : Nat} (h : n < 4294967296) :
    parseU32 (natReprChars n) = some n := by
  simp only [parseU32, stripPlus_natReprChars, parseDigits_natReprChars]
  rw [if_neg (natReprChars_ne_nil n)]
  simp [h]

/-- The push-each-`Ok` fold used by both `parse_file` functions
collects exactly the successful parses, in order. -/
theorem foldl_push_filterMap {β : Type} (f : String → Except Unit β) :
    ∀ (L : List String) (acc : List β),
      L.foldl (pushOk f) acc = acc ++ L.filterMap (fun l => (f l).toOption) := by
  intro L
  induction L with
  | nil => intro acc; simp
  | cons l L ih =>
    intro acc
    simp only [List.foldl_cons, List.filterMap_cons]
    cases hf : f l with
    | ok b => rw [pushOk, hf, ih]; simp [Except.toOption]
    | error e => rw [pushOk, hf, ih]; simp [Except.toOption]

/-- `Passwd::parse_file` always succeeds, with exactly the records of
the parseable lines in file order. -/
theorem passwd_parse_file_ok (file_data : String) :
    Passwd.parse_file file_data = Except.ok (passwdRecords file_data) := by
  unfold Passwd.parse_file passwdRecords
  rw [foldl_push_filterMap Passwd.parse]
  simp

/-- `Group::parse_file` always succeeds, with exactly the records of
the parseable lines in file order. -/
theorem group_parse_file_ok (file_data : String) :
    Group.parse_file file_data = Except.ok (groupRecords file_data) := by
  unfold Group.parse_file groupRecords
  rw [foldl_push_filterMap Group.parse]
  simp

/-- The passwd lookup is the first-match scan over the parseable
records; in particular the `unwrap` of `parse_file` cannot panic. -/
theorem get_passwd_by_id_eq_find (uid : Nat) (passwd_data : String) :
    get_passwd_by_id uid passwd_data =
      (passwdRecords passwd_data).find? (fun passwd => passwd.uid == uid) := by
  unfold get_passwd_by_id
  rw [passwd_parse_file_ok]

/-- The group lookup is the first-match scan over the parseable
records. -/
theorem get_group_by_id_eq_find (gid : Nat) (group_data : String) :
    get_group_by_id gid group_data =
      (groupRecords group_data).find? (fun group => group.gid == gid) := by
  unfold get_group_by_id
  rw [group_parse_file_ok]

/-- First-match characterisation of `List.find?`, phrased with
explicit indices. -/
theorem find?_spec {β : Type} (q : β → Bool) (l : List β) (b : β) :
    l.find? q = some b ↔
      q b = true ∧ ∃ i, ∃ h : i < l.length, l.get ⟨i, h⟩ = b ∧
        ∀ j, ∀ hj : j < i, q (l.get ⟨j, Nat.lt_trans hj h⟩) = false := by
  rw [List.find?_eq_some_iff_getElem]
  constructor
  · rintro ⟨hq, i, h, hget, hfirst⟩
    refine ⟨hq, i, h, by simpa using hget, fun j hj => ?_⟩
    simpa using hfirst j hj
  · rintro ⟨hq, i, h, hget, hfirst⟩
    exact ⟨hq, i, h, by simpa using hget, fun j hj => by simpa using hfirst j hj⟩

/-- `Passwd::parse` succeeds exactly when the split has at least seven
pieces and the third and fourth parse as `u32`. -/
theorem passwdFields_isOk_iff (fs : List (List Char)) :
    (Passwd.parseFields fs).isOk = true ↔
      7 ≤ fs.length ∧ (parseU32 (fs.getD 2 [])).isSome = true ∧
        (parseU32 (fs.getD 3 [])).isSome = true := by
  rcases fs with _ | ⟨f0, _ | ⟨f1, _ | ⟨f2, _ | ⟨f3, _ | ⟨f4, _ | ⟨f5, _ | ⟨f6, rest⟩⟩⟩⟩⟩⟩⟩ <;>
    simp [Passwd.parseFields, List.getD, Except.isOk, Except.toBool]
  · cases h2 : parseU32 f2 <;> cases h3 : parseU32 f3 <;>
      simp [Except.isOk, Except.toBool]

/-- `Group::parse` succeeds exactly when the split has at least three
pieces and the second parses as `u32`. -/
theorem groupFields_isOk_iff (fs : List (List Char)) :
    (Group.parseFields fs).isOk = true ↔
      3 ≤ fs.length ∧ (parseU32 (fs.getD 1 [])).isSome = true := by
  rcases fs with _ | ⟨f0, _ | ⟨f1, _ | ⟨f2, rest⟩⟩⟩ <;>
    simp [Group.parseFields, List.getD, Except.isOk, Except.toBool]
  · cases h1 : parseU32 f1 <;> simp [Except.isOk, Except.toBool]

/-! ## The claims -/

/-- C5, counterexample: the claim says a line whose `';'`-split yields
more than seven fields is rejected as malformed; but on
`"a;b;1;2;n;h;s;x"`, whose split has eight pieces, `Passwd::parse`
succeeds, so the claimed equivalence is false at this input. -/
theorem parse_extra_fields_accepted :
    ¬ ((Passwd.parse "a;b;1;2;n;h;s;x").isOk = true ↔
        ((splitOnChar ';' ("a;b;1;2;n;h;s;x").data).length = 7 ∧
         (parseU32 ((splitOnChar ';' ("a;b;1;2;n;h;s;x").data).getD 2 [])).isSome = true ∧
         (parseU32 ((splitOnChar ';' ("a;b;1;2;n;h;s;x").data).getD 3 [])).isSome = true)) := by
  decide

/-- C5, amended: `Passwd::parse` succeeds on a line iff splitting it on
`';'` yields at least 7 fields with the uid and gid fields parsing as
unsigned 32-bit integers, and `Group::parse` succeeds iff the split
yields at least 3 fields with the gid field parsing; extra trailing
fields beyond the expected arity are ignored, not rejected. -/
theorem parse_ok_iff_enough_fields :
    ∀ line : String,
      ((Passwd.parse line).isOk = true ↔
        (7 ≤ (splitOnChar ';' line.data).length ∧
         (parseU32 ((splitOnChar ';' line.data).getD 2 [])).isSome = true ∧
         (parseU32 ((splitOnChar ';' line.data).getD 3 [])).isSome = true)) ∧
      ((Group.parse line).isOk = true ↔
        (3 ≤ (splitOnChar ';' line.data).length ∧
         (parseU32 ((splitOnChar ';' line.data).getD 1 [])).isSome = true)) :=
  fun line =>
    ⟨passwdFields_isOk_iff (splitOnChar ';' line.data),
     groupFields_isOk_iff (splitOnChar ';' line.data)⟩

/-- C9: a stored hash that does not decode as a structurally valid
encoded hash makes `Passwd::verify` abort the call (the `unwrap`
panic, modelled by `none`) for every candidate secret, never return a
boolean — so a corrupt stored hash is distinguishable from a wrong
password. -/
theorem verify_corrupt_hash_aborts :
    ∀ (c : Codec) (p : Passwd) (secret : String),
      c.decode p.hash = none →
        Passwd.verify c p secret = none ∧
          ∀ b : Bool, Passwd.verify c p secret ≠ some b := by
  intro c p secret h
  unfold Passwd.verify
  rw [h]
  exact ⟨rfl, fun b => by simp⟩

/-- Witness for C9 at a concrete record and the all-corrupt codec. -/
theorem verify_corrupt_hash_aborts_witness :
    corruptCodec.decode aliceRecord.hash = none ∧
      (Passwd.verify corruptCodec aliceRecord "secret" = none ∧
        ∀ b : Bool, Passwd.verify corruptCodec aliceRecord "secret" ≠ some b) :=
  ⟨rfl, verify_corrupt_hash_aborts corruptCodec aliceRecord "secret" rfl⟩

/-- C10: on every input string both `parse_file` functions return `Ok`
of exactly the records of the lines that parse, in file order; the
`Err` case is unreachable, so the `unwrap` inside the lookups never
fails and each lookup is the plain first-match scan of those records. -/
theorem parse_file_never_fails :
    ∀ file_data : String,
      Passwd.parse_file file_data = Except.ok (passwdRecords file_data) ∧
      Group.parse_file file_data = Except.ok (groupRecords file_data) ∧
      (∀ id, get_passwd_by_id id file_data =
        (passwdRecords file_data).find? (fun passwd => passwd.uid == id)) ∧
      (∀ id, get_group_by_id id file_data =
        (groupRecords file_data).find? (fun group => group.gid == id)) :=
  fun s =>
    ⟨passwd_parse_file_ok s, group_parse_file_ok s,
     fun id => get_passwd_by_id_eq_find id s,
     fun id => get_group_by_id_eq_find id s⟩

/-- C8: each lookup returns the first record, in file-line order among
the parseable lines, whose id matches; with duplicates the earliest
occurrence wins, and a snapshot with no matching parseable line gives
`none`. -/
theorem lookup_returns_first_match :
    ∀ (passwd_data group_data : String) (id : Nat),
      (∀ p : Passwd, get_passwd_by_id id passwd_data = some p ↔
        (p.uid = id ∧ ∃ i, ∃ h : i < (passwdRecords passwd_data).length,
          (passwdRecords passwd_data).get ⟨i, h⟩ = p ∧
          ∀ j, ∀ hj : j < i,
            ((passwdRecords passwd_data).get ⟨j, Nat.lt_trans hj h⟩).uid ≠ id)) ∧
      (get_passwd_by_id id passwd_data = none ↔
        ∀ p ∈ passwdRecords passwd_data, p.uid ≠ id) ∧
      (∀ g : Group, get_group_by_id id group_data = some g ↔
        (g.gid = id ∧ ∃ i, ∃ h : i < (groupRecords group_data).length,
          (groupRecords group_data).get ⟨i, h⟩ = g ∧
          ∀ j, ∀ hj : j < i,
            ((groupRecords group_data).get ⟨j, Nat.lt_trans hj h⟩).gid ≠ id)) ∧
      (get_group_by_id id group_data = none ↔
        ∀ g ∈ groupRecords group_data, g.gid ≠ id) := by
  intro pd gd id
  refine ⟨fun p => ?_, ?_, fun g => ?_, ?_⟩
  · rw [get_passwd_by_id_eq_find, find?_spec]
    constructor
    · rintro ⟨hq, i, h, hget, hfirst⟩
      exact ⟨by simpa using hq, i, h, hget, fun j hj => by simpa using hfirst j hj⟩
    · rintro ⟨hq, i, h, hget, hfirst⟩
      exact ⟨by simpa using hq, i, h, hget, fun j hj => by simpa using hfirst j hj⟩
  · rw [get_passwd_by_id_eq_find, List.find?_eq_none]
    constructor <;> intro hall x hx <;> simpa using hall x hx
  · rw [get_group_by_id_eq_find, find?_spec]
    constructor
    · rintro ⟨hq, i, h, hget, hfirst⟩
      exact ⟨by simpa using hq, i, h, hget, fun j hj => by simpa using hfirst j hj⟩
    · rintro ⟨hq, i, h, hget, hfirst⟩
      exact ⟨by simpa using hq, i, h, hget, fun j hj => by simpa using hfirst j hj⟩
  · rw [get_group_by_id_eq_find, List.find?_eq_none]
    constructor <;> intro hall x hx <;> simpa using hall x hx

/-- C7: for records whose string fields contain neither the field
delimiter nor a line break (and whose numeric fields are 32-bit values,
as the `u32` typing of the source guarantees), parsing the `';'`-joined
serialization in database order recovers the record exactly, for both
record kinds. -/
theorem parse_serialize_roundtrip :
    ∀ (p : Passwd) (g : Group),
      p.uid < 4294967296 → p.gid < 4294967296 → g.gid < 4294967296 →
      (∀ c ∈ p.user.data, c ≠ ';' ∧ c ≠ '\n') →
      (∀ c ∈ p.hash.data, c ≠ ';' ∧ c ≠ '\n') →
      (∀ c ∈ p.name.data, c ≠ ';' ∧ c ≠ '\n') →
      (∀ c ∈ p.home.data, c ≠ ';' ∧ c ≠ '\n') →
      (∀ c ∈ p.shell.data, c ≠ ';' ∧ c ≠ '\n') →
      (∀ c ∈ g.group.data, c ≠ ';' ∧ c ≠ '\n') →
      (∀ c ∈ g.users.data, c ≠ ';' ∧ c ≠ '\n') →
      Passwd.parse (Passwd.serialize p) = Except.ok p ∧
        Group.parse (Group.serialize g) = Except.ok g := by
  intro p g huid hgid hggid hpu hph hpn hpho hpsh hgg hgu
  have hu : ';' ∉ p.user.data := fun hm => (hpu ';' hm).1 rfl
  have hh : ';' ∉ p.hash.data := fun hm => (hph ';' hm).1 rfl
  have hn : ';' ∉ p.name.data := fun hm => (hpn ';' hm).1 rfl
  have hho : ';' ∉ p.home.data := fun hm => (hpho ';' hm).1 rfl
  have hsh : ';' ∉ p.shell.data := fun hm => (hpsh ';' hm).1 rfl
  have hg1 : ';' ∉ g.group.data := fun hm => (hgg ';' hm).1 rfl
  have hg2 : ';' ∉ g.users.data := fun hm => (hgu ';' hm).1 rfl
  constructor
  · show Passwd.parseFields (splitOnChar ';' (Passwd.serialize p).data) = Except.ok p
    have hdata : (Passwd.serialize p).data =
        p.user.data ++ ';' :: (p.hash.data ++ ';' :: (natReprChars p.uid ++ ';' ::
          (natReprChars p.gid ++ ';' :: (p.name.data ++ ';' ::
            (p.home.data ++ ';' :: p.shell.data))))) := by
      simp [Passwd.serialize, List.append_assoc]
    rw [hdata, splitOnChar_append hu, splitOnChar_append hh,
        splitOnChar_append (natReprChars_not_semicolon p.uid),
        splitOnChar_append (natReprChars_not_semicolon p.gid),
        splitOnChar_append hn, splitOnChar_append hho,
        splitOnChar_of_not_mem hsh]
    simp [Passwd.parseFields, parseU32_natRepr huid, parseU32_natRepr hgid]
  · show Group.parseFields (splitOnChar ';' (Group.serialize g).data) = Except.ok g
    have hdata : (Group.serialize g).data =
        g.group.data ++ ';' :: (natReprChars g.gid ++ ';' :: g.users.data) := by
      simp [Group.serialize, List.append_assoc]
    rw [hdata, splitOnChar_append hg1,
        splitOnChar_append (natReprChars_not_semicolon g.gid),
        splitOnChar_of_not_mem hg2]
    simp [Group.parseFields, parseU32_natRepr hggid]

/-- Witness for C7 at concrete records. -/
theorem parse_serialize_roundtrip_witness :
    (aliceRecord.uid < 4294967296 ∧ sudoGroupRecord.gid < 4294967296 ∧
      (∀ c ∈ aliceRecord.user.data, c ≠ ';' ∧ c ≠ '\n') ∧
      (∀ c ∈ sudoGroupRecord.users.data, c ≠ ';' ∧ c ≠ '\n')) ∧
    (Passwd.parse (Passwd.serialize aliceRecord) = Except.ok aliceRecord ∧
      Group.parse (Group.serialize sudoGroupRecord) = Except.ok sudoGroupRecord) :=
  ⟨⟨by decide, by decide, by decide, by decide⟩,
   parse_serialize_roundtrip aliceRecord sudoGroupRecord
     (by decide) (by decide) (by decide) (by decide) (by decide) (by decide)
     (by decide) (by decide) (by decide) (by decide)⟩

/-- C6, counterexample: the claim says both the login and the
identity-substitution contexts set the working directory to the
target's home; the context built by su's `spawn_shell` for a concrete
record sets no working directory at all, so the claim is false there. -/
theorem su_context_omits_home_directory :
    ¬ (((Login.spawn_shell aliceRecord).cwd = some aliceRecord.home) ∧
       ((Su.spawn_shell aliceRecord).cwd = some aliceRecord.home)) := by
  decide

/-- C6, amended: the login context sets the working directory to the
target's home, while the su context leaves it unchanged; both launch
the target's shell under the target's uid and gid with the USER, UID,
GROUPS, HOME, SHELL overlay drawn from the target record. -/
theorem spawn_contexts_login_su :
    ∀ user : Passwd,
      (Login.spawn_shell user).program = user.shell ∧
      (Login.spawn_shell user).uid = user.uid ∧
      (Login.spawn_shell user).gid = user.gid ∧
      (Login.spawn_shell user).cwd = some user.home ∧
      (Login.spawn_shell user).env =
        [("USER", user.user), ("UID", natRepr user.uid),
         ("GROUPS", natRepr user.gid), ("HOME", user.home),
         ("SHELL", user.shell)] ∧
      (Su.spawn_shell user).program = user.shell ∧
      (Su.spawn_shell user).uid = user.uid ∧
      (Su.spawn_shell user).gid = user.gid ∧
      (Su.spawn_shell user).cwd = none ∧
      (Su.spawn_shell user).env =
        [("USER", user.user), ("UID", natRepr user.uid),
         ("GROUPS", natRepr user.gid), ("HOME", user.home),
         ("SHELL", user.shell)] :=
  fun _ => ⟨rfl, rfl, rfl, rfl, rfl, rfl, rfl, rfl, rfl, rfl⟩

/-- C1, code bug: when the target's stored hash is non-empty and
verification rejects the candidate secret, su prints
`su: authentication failed` — and then falls through to the final
`spawn_shell(user)`, spawning the target's shell with the target's
uid/gid/environment and exiting 0. The claimed denial with a non-zero
exit and no shell is exactly what the code fails to do. -/
theorem su_rejected_secret_still_spawns :
    ∀ (uid : Nat) (user : Passwd) (password : String) (c : Codec),
      user.hash ≠ "" →
      Passwd.verify c user password = some false →
        (Su.main uid user (some password) c).authFailedMsg = true ∧
        (Su.main uid user (some password) c).spawned = some (Su.spawn_shell user) ∧
        (Su.main uid user (some password) c).exitCode = some 0 := by
  intro uid user password c hhash hverify
  unfold Su.main
  rw [if_pos (Or.inr hhash)]
  simp only [Su.promptBranch, hverify, Su.afterVerify]
  exact ⟨trivial, trivial, trivial⟩

/-- Witness for C1: a non-root caller, a record with a non-empty hash,
and a rejecting codec. -/
theorem su_rejected_secret_still_spawns_witness :
    (aliceRecord.hash ≠ "" ∧
      Passwd.verify rejectCodec aliceRecord "wrong" = some false) ∧
    ((Su.main 1000 aliceRecord (some "wrong") rejectCodec).authFailedMsg = true ∧
      (Su.main 1000 aliceRecord (some "wrong") rejectCodec).spawned =
        some (Su.spawn_shell aliceRecord) ∧
      (Su.main 1000 aliceRecord (some "wrong") rejectCodec).exitCode = some 0) :=
  ⟨⟨by decide, rfl⟩,
   su_rejected_secret_still_spawns 1000 aliceRecord "wrong" rejectCodec
     (by decide) rfl⟩

/-- C2, code bug: the empty-hash short-circuit holds in the login flow
(shell spawned at once, codec never invoked), but not in the
identity-substitution flow: su's guard is `uid > 0 || user.hash != ""`,
so a non-root caller targeting a passwordless record is still prompted
and `verify` is still invoked on the empty stored hash. -/
theorem empty_hash_bypass_fails_in_su :
    ∀ (user : Passwd) (c : Codec) (password : String) (uid : Nat),
      user.hash = "" →
        ((Login.step (some user) (some password) c).codecInvoked = false ∧
          (Login.step (some user) (some password) c).spawned =
            some (Login.spawn_shell user)) ∧
        (0 < uid →
          (Su.main uid user (some password) c).prompted = true ∧
          (Su.main uid user (some password) c).codecInvoked = true) := by
  intro user c password uid hhash
  constructor
  · simp only [Login.step]
    rw [if_pos hhash]
    exact ⟨rfl, rfl⟩
  · intro huid
    unfold Su.main
    rw [if_pos (Or.inl huid)]
    simp only [Su.promptBranch]
    cases hv : Passwd.verify c user password with
    | none => exact ⟨rfl, rfl⟩
    | some b => cases b <;> exact ⟨rfl, rfl⟩

/-- Witness for C2: the passwordless record `bob`, a non-root caller. -/
theorem empty_hash_bypass_fails_in_su_witness :
    (bobRecord.hash = "" ∧ 0 < 1000) ∧
    (((Login.step (some bobRecord) (some "") rejectCodec).codecInvoked = false ∧
       (Login.step (some bobRecord) (some "") rejectCodec).spawned =
         some (Login.spawn_shell bobRecord)) ∧
     (0 < 1000 →
       (Su.main 1000 bobRecord (some "") rejectCodec).prompted = true ∧
       (Su.main 1000 bobRecord (some "") rejectCodec).codecInvoked = true)) :=
  ⟨⟨rfl, by decide⟩,
   empty_hash_bypass_fails_in_su bobRecord rejectCodec "" 1000 rfl⟩

/-- C3, code bug: su's guard `uid > 0 || user.hash != ""` is true for a
uid-0 caller whenever the target's stored hash is non-empty, so the
superuser is still prompted for (and verified against) the target's
password instead of short-circuiting to acceptance. -/
theorem su_root_caller_still_prompted :
    ∀ (user : Passwd) (input : Option String) (c : Codec),
      user.hash ≠ "" → (Su.main 0 user input c).prompted = true := by
  intro user input c hhash
  unfold Su.main
  rw [if_pos (Or.inr hhash)]
  cases input with
  | none => rfl
  | some password =>
    simp only [Su.promptBranch]
    cases hv : Passwd.verify c user password with
    | none => rfl
    | some b => cases b <;> rfl

/-- Witness for C3: a uid-0 caller targeting a record with a non-empty
hash. -/
theorem su_root_caller_still_prompted_witness :
    aliceRecord.hash ≠ "" ∧
      (Su.main 0 aliceRecord (some "pw") rejectCodec).prompted = true :=
  ⟨by decide,
   su_root_caller_still_prompted aliceRecord (some "pw") rejectCodec (by decide)⟩

/-- C4: every sudo invocation that reaches the command-spawn step hands
the spawn collaborator a context with uid 0, gid 0 and the fixed
`USER=root`, `UID=0`, `GROUPS=0` overlay, whatever the invoking user's
own record fields are. -/
theorem sudo_spawn_context_is_root :
    ∀ (args : List String) (uid : Nat) (passwd_data group_data : String)
      (inputs : List (Option String)) (c : Codec) (ctx : SecurityContext),
      Sudo.main args uid passwd_data group_data inputs c = Sudo.Result.spawn ctx →
        ctx.uid = 0 ∧ ctx.gid = 0 ∧
          ctx.env = [("USER", "root"), ("UID", "0"), ("GROUPS", "0")] := by
  intro args uid pd gd inputs c ctx h
  cases args with
  | nil => exact absurd h (by simp [Sudo.main])
  | cons cmd rest =>
    simp only [Sudo.main, Sudo.nonRootChecks, Sudo.authGate] at h
    split at h
    · split at h
      · exact absurd h (by simp)
      · split at h
        · exact absurd h (by simp)
        · split at h
          · injection h with h'
            subst h'
            exact ⟨rfl, rfl, rfl⟩
          · split at h
            · injection h with h'
              subst h'
              exact ⟨rfl, rfl, rfl⟩
            · exact absurd h (by simp)
    · injection h with h'
      subst h'
      exact ⟨rfl, rfl, rfl⟩

/-- Witness for C4: a uid-0 invocation of `sudo ls` reaches the spawn
step with the fixed root context. -/
theorem sudo_spawn_context_is_root_witness :
    Sudo.main ["ls"] 0 "" "" [] rejectCodec =
      Sudo.Result.spawn
        ⟨"ls", [], 0, 0, none, [("USER", "root"), ("UID", "0"), ("GROUPS", "0")]⟩ ∧
    ((⟨"ls", [], 0, 0, none,
        [("USER", "root"), ("UID", "0"), ("GROUPS", "0")]⟩ : SecurityContext).uid = 0 ∧
      (⟨"ls", [], 0, 0, none,
        [("USER", "root"), ("UID", "0"), ("GROUPS", "0")]⟩ : SecurityContext).gid = 0 ∧
      (⟨"ls", [], 0, 0, none,
        [("USER", "root"), ("UID", "0"), ("GROUPS", "0")]⟩ : SecurityContext).env =
          [("USER", "root"), ("UID", "0"), ("GROUPS", "0")]) :=
  ⟨rfl, sudo_spawn_context_is_root ["ls"] 0 "" "" [] rejectCodec _ rfl⟩

end Userutils
